import Mathlib

/-!
Verification development for the KinectHAMonitor repository.

The repository contains two near-duplicate main scripts and one tracking
module:

* `Monitor/kinect_motion_runloop.py` — callback-driven variant with a
  sliding window (`deque(maxlen=30)`), a grace-evaluation counter, an
  idle timeout, an unbounded debounced redundant "true" publish, jog
  tilt actuation and LED control (`process_depth`, `body_callback`).
* `Monitor/kinect_motion_mqtt.py` — polling variant with a one-shot
  redundant "true" publish guarded by a `redundant_sent` flag, an idle
  timeout only (no grace counter), and a double "false" publish on the
  Active→Idle transition (`main`, `connect_mqtt`).
* `Monitor/kinect_motion_track.py` — direct-set centroid→tilt mapping
  (`track_from_frame`).

Each Python function relevant to the stated properties is embedded below as
an executable Lean function over explicit state records.  Wall-clock times
are modelled as exact rationals, per-frame image processing results
(`msk.sum()`, centroid row) as abstract inputs to the step functions.
-/

namespace KinectHAMonitor

/-! ## Sliding window (`pixel_hist = deque(maxlen=30)`) -/

/-- One `append` on a Python `deque(maxlen=cap)`: if the deque is not yet
full the element is appended; otherwise the oldest (leftmost) element is
evicted first. -/
def dequeAppend (cap : Nat) (xs : List Nat) (x : Nat) : List Nat :=
  if xs.length < cap then xs ++ [x] else xs.tail ++ [x]

/-- `avg = sum(pixel_hist)/len(pixel_hist)` — the moving average of the
window contents, as an exact rational. -/
def window_avg (w : List Nat) : Rat :=
  (w.sum : Rat) / (w.length : Rat)

/-! ## Runloop variant (`kinect_motion_runloop.py`) -/

/-- Constants from the `Globals` section of `kinect_motion_runloop.py`. -/
def CHECK_INTERVAL : Rat := 5
def DEBOUNCE_SEC : Rat := 5
def IDLE_TIMEOUT : Rat := 4 * 60
def MOTION_GRACE_EVALS : Nat := 30
def TILT_COOLDOWN : Rat := 1
def STEP_DEG : Int := 5
def LED_GREEN : Nat := 1
def LED_RED : Nat := 2

/-- The module-level mutable state read and written by `process_depth`. -/
structure RLState where
  pixel_hist : List Nat
  last_check : Rat
  motion_state : Bool
  last_motion : Rat
  below_cnt : Nat
  current_tilt : Int
  desired_led : Nat
  prev_seen : Bool
  deriving Repr, DecidableEq

/-- The per-call data available to `process_depth`: the thresholded frame
difference is abstracted to its pixel sum `metric` (`int(msk.sum())`), its
vertical centroid `cy` (`centroid_y(msk)`, `none` for a zero-mass mask),
the frame height `frameH` (`frame.shape[0]`) and the wall clock `now`
(`time.time()`). -/
structure DepthInput where
  metric : Nat
  cy : Option Nat
  frameH : Nat
  now : Rat
  deriving Repr, DecidableEq

/-- The jog-tilt update performed inside `process_depth` while
`motion_state` holds: jog up by `STEP_DEG` (clamped at 30) when the
centroid is in the top 30 % of the frame and the pixel sum exceeds the
threshold, jog down (clamped at −30) when it is in the bottom 30 %. -/
def jogUpdate (thr : Nat) (s : RLState) (inp : DepthInput) : Int :=
  match inp.cy with
  | none => s.current_tilt
  | some cy =>
    if (cy : Rat) < (inp.frameH : Rat) * (3/10) ∧ inp.metric > thr then
      min (s.current_tilt + STEP_DEG) 30
    else if (cy : Rat) > (inp.frameH : Rat) * (7/10) ∧ inp.metric > thr then
      max (s.current_tilt - STEP_DEG) (-30)
    else s.current_tilt

/-- The window as it stands when the evaluation guard is reached: the new
metric has been appended exactly when a previous frame existed. -/
def evalWindow (s : RLState) (inp : DepthInput) : List Nat :=
  if s.prev_seen then dequeAppend 30 s.pixel_hist inp.metric else s.pixel_hist

/-- `process_depth` from `kinect_motion_runloop.py`, as a state transformer
returning the successor state and the list of MQTT payloads published
during the call.  Structure mirrors the source: frame differencing and jog
while a previous frame exists, then the 5-second-gated evaluation that
clears the window and updates the motion state machine. -/
def process_depth (thr : Nat) (s : RLState) (inp : DepthInput) : RLState × List String :=
  let hist := evalWindow s inp
  let tilt := if s.prev_seen ∧ s.motion_state then jogUpdate thr s inp else s.current_tilt
  let s1 : RLState := { s with pixel_hist := hist, current_tilt := tilt, prev_seen := true }
  if inp.now - s1.last_check < CHECK_INTERVAL then (s1, [])
  else
    let s2 : RLState := { s1 with last_check := inp.now }
    if s2.pixel_hist = [] then (s2, [])
    else
      let avg := window_avg s2.pixel_hist
      let s3 : RLState := { s2 with pixel_hist := [] }
      if avg > (thr : Rat) then
        let s4 : RLState := { s3 with below_cnt := 0 }
        if ¬ s4.motion_state then
          ({ s4 with motion_state := true, last_motion := inp.now, desired_led := LED_RED },
            ["true"])
        else if inp.now - s4.last_motion > DEBOUNCE_SEC then
          ({ s4 with last_motion := inp.now }, ["true"])
        else (s4, [])
      else
        if s3.motion_state then
          let b := s3.below_cnt + 1
          if MOTION_GRACE_EVALS ≤ b ∨ IDLE_TIMEOUT ≤ inp.now - s3.last_motion then
            ({ s3 with below_cnt := b, motion_state := false, desired_led := LED_GREEN },
              ["false"])
          else ({ s3 with below_cnt := b }, [])
        else ({ s3 with below_cnt := 0 }, [])

/-- Initial values of the runloop globals. -/
def rlInit : RLState :=
  { pixel_hist := []
    last_check := 0
    motion_state := false
    last_motion := 0
    below_cnt := 0
    current_tilt := -15
    desired_led := LED_GREEN
    prev_seen := false }

/-- The state touched by `body_callback` on top of the depth-callback
state. -/
structure SysState where
  rl : RLState
  last_led : Option Nat
  last_tilt_time : Rat
  deriving Repr, DecidableEq

/-- `body_callback` from `kinect_motion_runloop.py`: applies the desired
LED when it differs from the last applied one, and re-applies the current
tilt angle whenever the tilt cooldown has elapsed.  Returns the successor
state, the LED commands issued and the tilt angles passed to
`set_tilt_degs`. -/
def body_callback (s : SysState) (now : Rat) : SysState × List Nat × List Int :=
  let ledPair :=
    if s.last_led ≠ some s.rl.desired_led then
      ([s.rl.desired_led], some s.rl.desired_led)
    else ([], s.last_led)
  if TILT_COOLDOWN ≤ now - s.last_tilt_time then
    ({ s with last_led := ledPair.2, last_tilt_time := now }, ledPair.1, [s.rl.current_tilt])
  else
    ({ s with last_led := ledPair.2 }, ledPair.1, [])

/-- One event delivered by the freenect runloop: a depth callback or a
body callback. -/
inductive SysEvent where
  | depth (inp : DepthInput)
  | body (now : Rat)

/-- One step of the whole runloop program: the state, the MQTT payloads
published, the LED commands and the tilt commands applied. -/
def sys_step (thr : Nat) (s : SysState) (e : SysEvent) :
    SysState × List String × List Nat × List Int :=
  match e with
  | .depth inp =>
    let r := process_depth thr s.rl inp
    ({ s with rl := r.1 }, r.2, [], [])
  | .body now =>
    let r := body_callback s now
    (r.1, [], r.2.1, r.2.2)

/-- Initial program state of the runloop script. -/
def sysInit : SysState :=
  { rl := rlInit, last_led := none, last_tilt_time := 0 }

/-- The states reachable by the runloop program from its initial state
under any sequence of depth/body callbacks. -/
inductive Reachable (thr : Nat) : SysState → Prop where
  | init : Reachable thr sysInit
  | step : ∀ s e, Reachable thr s → Reachable thr (sys_step thr s e).1

/-! ## Polling variant (`kinect_motion_mqtt.py`) -/

/-- Timing constants of `kinect_motion_mqtt.py`. -/
def IDLE_TIME : Rat := 4 * 60
def REDUNDANCY_DELAY : Rat := 30
def MQTT_DEBOUNCE_SEC : Rat := 5

/-- The loop-local state of `main` in `kinect_motion_mqtt.py`.  The
previous frame is abstracted to whether one exists. -/
structure MqttState where
  last_frame : Bool
  last_motion : Rat
  motion_state : Bool
  redundant_sent : Bool
  interval : Rat
  deriving Repr, DecidableEq

/-- Initial loop state of `main`. -/
def mqttInit : MqttState :=
  { last_frame := false
    last_motion := 0
    motion_state := false
    redundant_sent := false
    interval := 5 }

/-- One iteration of the `while True` loop of `main` in
`kinect_motion_mqtt.py`.  `detected` abstracts
`motion_detected(last_frame, frame, threshold)`; the returned list holds
the payloads handed to `publish_state` during the iteration. -/
def mqtt_step (s : MqttState) (detected : Bool) (now : Rat) : MqttState × List String :=
  if ¬ s.last_frame then ({ s with last_frame := true }, [])
  else if detected then
    if ¬ s.motion_state then
      ({ s with motion_state := true, last_motion := now, redundant_sent := false,
                interval := 1 }, ["true"])
    else if now - s.last_motion > MQTT_DEBOUNCE_SEC ∧ ¬ s.redundant_sent then
      ({ s with redundant_sent := true, interval := 1 }, ["true"])
    else ({ s with interval := 1 }, [])
  else
    if s.motion_state ∧ now - s.last_motion > IDLE_TIME then
      ({ s with motion_state := false, interval := 5 }, ["false", "false"])
    else (s, [])

/-- `connect_mqtt` from `kinect_motion_mqtt.py`, abstracted over the
outcome of each `client.connect` attempt: `Connected k` means attempt `k`
(0-based) succeeded and the client is returned; `Exited c` means
`sys.exit(c)` was reached. -/
inductive ConnectResult where
  | connected (attempt : Nat)
  | exited (code : Nat)
  deriving Repr, DecidableEq

/-- The `for retry in range(5)` loop body of `connect_mqtt`: on success
return the client, on `OSError` sleep 5 seconds and continue; after the
loop, exit with code 1.  Returns the result, the number of connect
attempts made and the list of sleep durations (seconds). -/
def connectFrom (ok : Nat → Bool) : List Nat → ConnectResult × Nat × List Rat
  | [] => (ConnectResult.exited 1, 0, [])
  | r :: rs =>
    if ok r then (ConnectResult.connected r, 1, [])
    else
      let t := connectFrom ok rs
      (t.1, t.2.1 + 1, 5 :: t.2.2)

/-- `connect_mqtt`: the retry loop instantiated at `range(5)`. -/
def connect_mqtt (ok : Nat → Bool) : ConnectResult × Nat × List Rat :=
  connectFrom ok [0, 1, 2, 3, 4]

/-! ## Tracking module (`kinect_motion_track.py`) -/

/-- `int(np.interp(y, [0, 480], [30, -30]))` followed by
`max(min(tilt, 30), -30)` from `track_from_frame`: `np.interp` clamps the
input to the breakpoint range and interpolates linearly (the exact value
being `(240 − y)/8`), and Python's `int(...)` truncates toward zero, which
is `Int.tdiv`. -/
def track_tilt (y : Int) : Int :=
  let t := if y ≤ 0 then 30
           else if 480 ≤ y then -30
           else Int.tdiv (240 - y) 8
  max (min t 30) (-30)

/-- The "poke" applied by `track_from_frame` right before settling on the
target: one degree above the target when below 30, one below otherwise. -/
def poke (t : Int) : Int :=
  if t < 30 then t + 1 else t - 1

/-! ## Sliding-window lemmas -/

lemma dequeAppend_length_le (cap : Nat) (hcap : 0 < cap) (xs : List Nat) (x : Nat)
    (h : xs.length ≤ cap) : (dequeAppend cap xs x).length ≤ cap := by
  simp only [dequeAppend]
  split
  · simp; omega
  · simp; omega

/-- Folding `dequeAppend cap` over a metric sequence keeps exactly the
suffix of the most recent `cap` elements. -/
lemma foldl_dequeAppend_eq_drop (cap : Nat) (hcap : 0 < cap) :
    ∀ (ms w : List Nat), w.length ≤ cap →
      ms.foldl (dequeAppend cap) w = (w ++ ms).drop ((w ++ ms).length - cap)
  | [], w, h => by
    simp [Nat.sub_eq_zero_of_le h]
  | m :: ms, w, h => by
    rw [List.foldl_cons,
      foldl_dequeAppend_eq_drop cap hcap ms (dequeAppend cap w m)
        (dequeAppend_length_le cap hcap w m h)]
    by_cases hlt : w.length < cap
    · simp only [dequeAppend, if_pos hlt]
      simp [List.append_assoc]
    · have hw : w.length = cap := Nat.le_antisymm h (Nat.not_lt.mp hlt)
      simp only [dequeAppend, if_neg hlt]
      have e1 : w.tail ++ [m] ++ ms = w.tail ++ (m :: ms) := by simp
      have e2 : (w ++ m :: ms).length - cap = 1 + ms.length := by simp; omega
      have e3 : (w.tail ++ (m :: ms)).length - cap = ms.length := by simp; omega
      have e5 : List.drop 1 (w ++ m :: ms) = w.tail ++ (m :: ms) := by
        rw [List.drop_append_of_le_length (by omega), List.drop_one]
      have e4 : List.drop (1 + ms.length) (w ++ m :: ms)
          = List.drop ms.length (w.tail ++ (m :: ms)) := by
        rw [← List.drop_drop, e5]
      rw [e1, e2, e3, e4]

/-! ## Claim theorems -/

/-- **C4** (confirmed).  For every sequence of change metrics appended to
the sliding window (`pixel_hist = deque(maxlen=30)` fed by
`pixel_hist.append(int(msk.sum()))`), the window's length never exceeds
the capacity 30 and its contents are exactly the most recently appended
metrics in arrival order, the oldest having been evicted first. -/
theorem sliding_window_bounded_suffix :
    ∀ ms : List Nat,
      (ms.foldl (dequeAppend 30) []).length ≤ 30 ∧
      ms.foldl (dequeAppend 30) [] = ms.drop (ms.length - 30) := by
  intro ms
  have h := foldl_dequeAppend_eq_drop 30 (by norm_num) ms [] (by simp)
  simp only [List.nil_append] at h
  refine ⟨?_, h⟩
  rw [h]
  simp
  omega

/-- **C5** counterexample.  The evaluation average is *not* the mean over
exactly the metrics appended since the previous evaluation: appending the
31 metrics `31, 0, 0, …, 0` to an empty window evicts the leading 31, so
the window average computed by `process_depth` is 0, while the mean of
everything appended since the previous evaluation is 1. -/
theorem window_eviction_mean_mismatch :
    window_avg ((31 :: List.replicate 30 0).foldl (dequeAppend 30) []) = 0 ∧
    window_avg (31 :: List.replicate 30 0) = 1 ∧ (0 : Rat) ≠ 1 := by
  refine ⟨?_, ?_, by norm_num⟩
  · have h : (31 :: List.replicate 30 0).foldl (dequeAppend 30) []
        = List.replicate 30 0 := by
      set_option maxRecDepth 8192 in decide
    rw [h]
    norm_num [window_avg, List.sum_replicate]
  · norm_num [window_avg, List.sum_replicate]

/-- **C5** as amended.  Every evaluation that actually runs clears the
window, so no sample is reused across evaluation cycles; and the window an
evaluation averages is the suffix of the at most 30 most recently appended
metrics since the window was last empty (older ones are evicted by the
window capacity, not carried over). -/
theorem evaluation_window_self_contained :
    (∀ (thr : Nat) (s : RLState) (inp : DepthInput),
        ¬ (inp.now - s.last_check < CHECK_INTERVAL) →
        evalWindow s inp ≠ [] →
        (process_depth thr s inp).1.pixel_hist = []) ∧
    (∀ ms : List Nat,
        ms.foldl (dequeAppend 30) [] = ms.drop (ms.length - 30) ∧
        window_avg (ms.foldl (dequeAppend 30) [])
          = window_avg (ms.drop (ms.length - 30))) := by
  constructor
  · intro thr s inp hdue hne
    simp only [process_depth]
    simp [hdue, hne]
    split <;> (try split) <;> (try split) <;> simp
  · intro ms
    have h := foldl_dequeAppend_eq_drop 30 (by norm_num) ms [] (by simp)
    simp only [List.nil_append] at h
    exact ⟨h, by rw [h]⟩

/-- **C5** witness. -/
theorem evaluation_window_self_contained_witness :
    (process_depth 1000000 { rlInit with prev_seen := true }
        ⟨2000000, none, 480, 5⟩).1.pixel_hist = [] := by
  have h := evaluation_window_self_contained.1 1000000
    { rlInit with prev_seen := true } ⟨2000000, none, 480, 5⟩
    (by norm_num [rlInit, CHECK_INTERVAL]) (by decide)
  exact h

/-- **C2** (confirmed).  In both variants, an evaluation while Idle whose
average (respectively `motion_detected` result) is above threshold flips
the state to Active, publishes "motion=true" exactly once, records
`lastMotionTimestamp = now`, and resets the consecutive-below counter
(runloop) respectively the redundancy flag (mqtt). -/
theorem idle_to_active_transition :
    (∀ (thr : Nat) (s : RLState) (inp : DepthInput),
        ¬ (inp.now - s.last_check < CHECK_INTERVAL) →
        s.motion_state = false →
        evalWindow s inp ≠ [] →
        window_avg (evalWindow s inp) > (thr : Rat) →
        (process_depth thr s inp).2 = ["true"] ∧
        (process_depth thr s inp).1.motion_state = true ∧
        (process_depth thr s inp).1.last_motion = inp.now ∧
        (process_depth thr s inp).1.below_cnt = 0 ∧
        (process_depth thr s inp).1.desired_led = LED_RED) ∧
    (∀ (s : MqttState) (now : Rat),
        s.last_frame = true →
        s.motion_state = false →
        (mqtt_step s true now).2 = ["true"] ∧
        (mqtt_step s true now).1.motion_state = true ∧
        (mqtt_step s true now).1.last_motion = now ∧
        (mqtt_step s true now).1.redundant_sent = false) := by
  constructor
  · intro thr s inp hdue hidle hne havg
    simp only [process_depth]
    simp [hdue, hne, havg, hidle]
  · intro s now hlf hidle
    simp [mqtt_step, hlf, hidle]

/-- **C2** witness: one evaluation with average 2 000 000 against
threshold 1 000 000 while Idle, in each variant. -/
theorem idle_to_active_transition_witness :
    (process_depth 1000000 { rlInit with prev_seen := true }
        ⟨2000000, none, 480, 5⟩).2 = ["true"] ∧
    (process_depth 1000000 { rlInit with prev_seen := true }
        ⟨2000000, none, 480, 5⟩).1.motion_state = true ∧
    (mqtt_step { mqttInit with last_frame := true } true 7).2 = ["true"] ∧
    (mqtt_step { mqttInit with last_frame := true } true 7).1.last_motion = 7 := by
  have h1 := idle_to_active_transition.1 1000000 { rlInit with prev_seen := true }
    ⟨2000000, none, 480, 5⟩ (by norm_num [rlInit, CHECK_INTERVAL]) (by rfl) (by decide)
    (by norm_num [evalWindow, dequeAppend, window_avg, rlInit])
  have h2 := idle_to_active_transition.2 { mqttInit with last_frame := true } 7
    (by rfl) (by rfl)
  exact ⟨h1.1, h1.2.1, h2.1, h2.2.2.1⟩

/-- **C1** counterexample.  In the `kinect_motion_mqtt.py` variant (cited
by the claim), the Active→Idle transition publishes "motion=false"
*twice*, not exactly once, and only the idle timeout can trigger it (no
consecutive-below counter exists there): while Active with
`last_motion = 0`, a below-threshold iteration at `now = 241 > 240`
publishes two "false" payloads. -/
theorem mqtt_double_false_publish :
    (mqtt_step { mqttInit with last_frame := true, motion_state := true }
        false 241).2 = ["false", "false"] ∧
    ({ mqttInit with last_frame := true, motion_state := true } : MqttState).motion_state
      = true ∧
    (241 : Rat) - 0 ≥ IDLE_TIMEOUT := by
  refine ⟨?_, rfl, by norm_num [IDLE_TIMEOUT]⟩
  norm_num [mqtt_step, mqttInit, IDLE_TIME]

/-- **C1** as amended.  In the runloop variant the claim holds as stated:
while Active with average ≤ threshold, Active→Idle fires exactly when the
incremented consecutive-below counter reaches 30 or
`now − lastMotion ≥ 240`, publishing "false" exactly once, and a single
above-threshold evaluation resets the counter to 0.  In the mqtt variant
there is no grace counter: the transition fires exactly when
`now − lastMotion > 240`, and "motion=false" is then published twice (an
intentional loss-compensation redundancy). -/
theorem active_to_idle_transition :
    (∀ (thr : Nat) (s : RLState) (inp : DepthInput),
        ¬ (inp.now - s.last_check < CHECK_INTERVAL) →
        s.motion_state = true →
        evalWindow s inp ≠ [] →
        (window_avg (evalWindow s inp) ≤ (thr : Rat) →
          ((MOTION_GRACE_EVALS ≤ s.below_cnt + 1 ∨
              IDLE_TIMEOUT ≤ inp.now - s.last_motion) →
            (process_depth thr s inp).2 = ["false"] ∧
            (process_depth thr s inp).1.motion_state = false ∧
            (process_depth thr s inp).1.desired_led = LED_GREEN) ∧
          (¬ (MOTION_GRACE_EVALS ≤ s.below_cnt + 1 ∨
              IDLE_TIMEOUT ≤ inp.now - s.last_motion) →
            (process_depth thr s inp).2 = [] ∧
            (process_depth thr s inp).1.motion_state = true ∧
            (process_depth thr s inp).1.below_cnt = s.below_cnt + 1)) ∧
        (window_avg (evalWindow s inp) > (thr : Rat) →
          (process_depth thr s inp).1.below_cnt = 0 ∧
          (process_depth thr s inp).1.motion_state = true)) ∧
    (∀ (s : MqttState) (now : Rat),
        s.last_frame = true →
        s.motion_state = true →
        (now - s.last_motion > IDLE_TIME →
          (mqtt_step s false now).2 = ["false", "false"] ∧
          (mqtt_step s false now).1.motion_state = false) ∧
        (¬ (now - s.last_motion > IDLE_TIME) →
          (mqtt_step s false now).2 = [] ∧
          (mqtt_step s false now).1 = s)) := by
  constructor
  · intro thr s inp hdue hact hne
    constructor
    · intro havg
      have hn : ¬ (window_avg (evalWindow s inp) > (thr : Rat)) := not_lt.mpr havg
      constructor
      · intro hfire
        simp only [process_depth]
        simp [hdue, hne, hn, hact, hfire]
      · intro hstay
        simp only [process_depth]
        simp [hdue, hne, hn, hact, hstay]
    · intro havg
      simp only [process_depth]
      simp [hdue, hne, havg, hact]
      refine ⟨?_, ?_⟩ <;> (split <;> rfl)
  · intro s now hlf hact
    constructor
    · intro hto
      simp [mqtt_step, hlf, hact, hto]
    · intro hto
      simp [mqtt_step, hlf, hact, hto]

/-- **C1** witness: with the counter at 29, one more sub-threshold
evaluation (average 0 ≤ 1 000 000) fires Active→Idle and publishes
"false" exactly once in the runloop variant. -/
theorem active_to_idle_transition_witness :
    (process_depth 1000000
        { rlInit with prev_seen := true, motion_state := true, below_cnt := 29 }
        ⟨0, none, 480, 5⟩).2 = ["false"] ∧
    (process_depth 1000000
        { rlInit with prev_seen := true, motion_state := true, below_cnt := 29 }
        ⟨0, none, 480, 5⟩).1.motion_state = false := by
  have h := (active_to_idle_transition.1 1000000
    { rlInit with prev_seen := true, motion_state := true, below_cnt := 29 }
    ⟨0, none, 480, 5⟩ (by norm_num [rlInit, CHECK_INTERVAL]) (by rfl) (by decide)).1
    (by norm_num [evalWindow, dequeAppend, window_avg, rlInit])
  have hfire := h.1 (by norm_num [MOTION_GRACE_EVALS, rlInit])
  exact ⟨hfire.1, hfire.2.1⟩

/-- **C3** counterexample.  In the `kinect_motion_mqtt.py` variant (cited
by the claim), redundant "true" publishes are one-shot: after activation
at t = 0 and a redundant publish at t = 6, a further evaluation at
t = 12 — a full 6 s > debounce after the last publish while continuously
Active — publishes nothing, because the `redundant_sent` flag is set. -/
theorem mqtt_redundant_publish_suppressed :
    (mqtt_step (mqtt_step (mqtt_step mqttInit true 0).1 true 0).1 true 6).2
      = ["true"] ∧
    (mqtt_step (mqtt_step (mqtt_step (mqtt_step mqttInit true 0).1 true 0).1
        true 6).1 true 12).2 = [] ∧
    (12 : Rat) - 6 > MQTT_DEBOUNCE_SEC := by
  refine ⟨?_, ?_, by norm_num [MQTT_DEBOUNCE_SEC]⟩ <;>
    norm_num [mqtt_step, mqttInit, MQTT_DEBOUNCE_SEC]

/-- **C3** as amended.  In the runloop variant the claim holds as stated
(the shared `last_motion` timestamp playing the role of
`lastPublishTimestamp`): while continuously Active above threshold,
"motion=true" is re-published exactly when `now − last_motion > 5`, with
`last_motion` updated on each redundant publish, so no duplicate "true"
occurs within the debounce interval.  In the mqtt variant a redundant
"true" is published exactly when `now − last_motion > 5` *and* the
`redundant_sent` flag is unset; the flag is then set and `last_motion` is
not updated, so at most one redundant publish occurs per Active
excursion. -/
theorem active_redundant_publish :
    (∀ (thr : Nat) (s : RLState) (inp : DepthInput),
        ¬ (inp.now - s.last_check < CHECK_INTERVAL) →
        s.motion_state = true →
        evalWindow s inp ≠ [] →
        window_avg (evalWindow s inp) > (thr : Rat) →
        (process_depth thr s inp).1.motion_state = true ∧
        (inp.now - s.last_motion > DEBOUNCE_SEC →
          (process_depth thr s inp).2 = ["true"] ∧
          (process_depth thr s inp).1.last_motion = inp.now) ∧
        (¬ (inp.now - s.last_motion > DEBOUNCE_SEC) →
          (process_depth thr s inp).2 = [] ∧
          (process_depth thr s inp).1.last_motion = s.last_motion)) ∧
    (∀ (s : MqttState) (now : Rat),
        s.last_frame = true →
        s.motion_state = true →
        (mqtt_step s true now).1.motion_state = true ∧
        (mqtt_step s true now).1.last_motion = s.last_motion ∧
        ((now - s.last_motion > MQTT_DEBOUNCE_SEC ∧ s.redundant_sent = false) →
          (mqtt_step s true now).2 = ["true"] ∧
          (mqtt_step s true now).1.redundant_sent = true) ∧
        (¬ (now - s.last_motion > MQTT_DEBOUNCE_SEC ∧ s.redundant_sent = false) →
          (mqtt_step s true now).2 = [] ∧
          (mqtt_step s true now).1.redundant_sent = s.redundant_sent)) := by
  constructor
  · intro thr s inp hdue hact hne havg
    refine ⟨?_, ?_, ?_⟩
    · simp only [process_depth]
      simp [hdue, hne, havg, hact]
      split <;> rfl
    · intro hdeb
      simp only [process_depth]
      simp [hdue, hne, havg, hact, hdeb]
    · intro hdeb
      simp only [process_depth]
      simp [hdue, hne, havg, hact, hdeb]
  · intro s now hlf hact
    refine ⟨?_, ?_, ?_, ?_⟩
    · simp [mqtt_step, hlf, hact]
      split <;> rfl
    · simp [mqtt_step, hlf, hact]
      split <;> rfl
    · intro hdeb
      simp [mqtt_step, hlf, hact, hdeb.1, hdeb.2]
    · intro hdeb
      simp only [not_and_or] at hdeb
      rcases hdeb with hdeb | hdeb
      · simp [mqtt_step, hlf, hact, hdeb]
      · have hsent : s.redundant_sent = true := by
          cases h : s.redundant_sent
          · simp [h] at hdeb
          · rfl
        simp [mqtt_step, hlf, hact, hsent]

/-- **C3** witness: while Active since t = 0 with average above
threshold, an evaluation at t = 6 (debounce 5 s elapsed) re-publishes
"true" and moves the publish timestamp to 6 in the runloop variant. -/
theorem active_redundant_publish_witness :
    (process_depth 1000000 { rlInit with prev_seen := true, motion_state := true }
        ⟨2000000, none, 480, 6⟩).2 = ["true"] ∧
    (process_depth 1000000 { rlInit with prev_seen := true, motion_state := true }
        ⟨2000000, none, 480, 6⟩).1.last_motion = 6 := by
  have h := active_redundant_publish.1 1000000
    { rlInit with prev_seen := true, motion_state := true }
    ⟨2000000, none, 480, 6⟩ (by norm_num [rlInit, CHECK_INTERVAL]) (by rfl) (by decide)
    (by norm_num [evalWindow, dequeAppend, window_avg, rlInit])
  exact h.2.1 (by norm_num [rlInit, DEBOUNCE_SEC])

/-- The tilt angle after a depth callback: changed only by the jog logic,
which runs only with a previous frame present and `motion_state` set. -/
lemma process_depth_current_tilt (thr : Nat) (s : RLState) (inp : DepthInput) :
    (process_depth thr s inp).1.current_tilt
      = if s.prev_seen ∧ s.motion_state then jogUpdate thr s inp else s.current_tilt := by
  simp only [process_depth]
  split
  · rfl
  · split
    · rfl
    · split
      · split
        · rfl
        · split <;> rfl
      · split
        · split <;> rfl
        · rfl

/-- A jog step keeps the tilt within the mechanical range. -/
lemma jogUpdate_bounds (thr : Nat) (s : RLState) (inp : DepthInput)
    (h : -30 ≤ s.current_tilt ∧ s.current_tilt ≤ 30) :
    -30 ≤ jogUpdate thr s inp ∧ jogUpdate thr s inp ≤ 30 := by
  cases hcy : inp.cy with
  | none => simpa [jogUpdate, hcy] using h
  | some cy =>
    simp only [jogUpdate, hcy, STEP_DEG]
    split_ifs <;> constructor <;> omega

/-- `body_callback` leaves the depth-callback state untouched. -/
lemma body_callback_rl (s : SysState) (now : Rat) :
    (body_callback s now).1.rl = s.rl := by
  simp only [body_callback]
  split <;> rfl

/-- **C6** (confirmed).  The applied actuator angle always lies within
the mechanical range [−30, 30]: the direct-set mapping (including its
pre-settle poke) clamps for every centroid row, in or out of
[0, frameHeight), and the jog accumulation of the runloop keeps
`current_tilt` within the range in every reachable program state. -/
theorem actuator_angle_clamped :
    (∀ y : Int, -30 ≤ track_tilt y ∧ track_tilt y ≤ 30 ∧
        -30 ≤ poke (track_tilt y) ∧ poke (track_tilt y) ≤ 30) ∧
    (∀ (thr : Nat) (s : SysState), Reachable thr s →
        -30 ≤ s.rl.current_tilt ∧ s.rl.current_tilt ≤ 30) := by
  constructor
  · intro y
    have h1 : -30 ≤ track_tilt y ∧ track_tilt y ≤ 30 := by
      simp only [track_tilt]
      exact ⟨le_max_right _ _, max_le (min_le_right _ _) (by norm_num)⟩
    refine ⟨h1.1, h1.2, ?_, ?_⟩ <;>
      · have h2 := h1
        simp only [poke]
        split <;> omega
  · intro thr s hr
    induction hr with
    | init => norm_num [sysInit, rlInit]
    | step s e _ ih =>
      cases e with
      | depth inp =>
        show -30 ≤ (process_depth thr s.rl inp).1.current_tilt ∧
          (process_depth thr s.rl inp).1.current_tilt ≤ 30
        rw [process_depth_current_tilt]
        split
        · exact jogUpdate_bounds thr s.rl inp ih
        · exact ih
      | body now =>
        show -30 ≤ (body_callback s now).1.rl.current_tilt ∧
          (body_callback s now).1.rl.current_tilt ≤ 30
        rw [body_callback_rl]
        exact ih

/-- **C6** witness: the initial program state is reachable and its tilt
(−15°) lies within the range. -/
theorem actuator_angle_clamped_witness :
    -30 ≤ sysInit.rl.current_tilt ∧ sysInit.rl.current_tilt ≤ 30 :=
  actuator_angle_clamped.2 3000000 sysInit Reachable.init

/-- **C7** (confirmed).  The direct-set mapping is the clamped linear
interpolation row 0 ↦ 30, row 480 ↦ −30: row 240 maps to exactly 0, and
on the whole input range the target is the truncated linear value
`(240 − y)/8`. -/
theorem centroid_to_angle_linear :
    track_tilt 0 = 30 ∧ track_tilt 480 = -30 ∧ track_tilt 240 = 0 ∧
    (∀ y : Int, 0 ≤ y → y ≤ 480 → track_tilt y = Int.tdiv (240 - y) 8) := by
  refine ⟨by decide, by decide, by decide, ?_⟩
  intro y h0 h480
  by_cases hy0 : y ≤ 0
  · have hy : y = 0 := le_antisymm hy0 h0
    subst hy; decide
  · by_cases hy480 : 480 ≤ y
    · have hy : y = 480 := le_antisymm h480 hy480
      subst hy; decide
    · simp only [track_tilt, if_neg hy0, if_neg hy480]
      rcases le_or_lt 0 (240 - y) with ha | ha
      · rw [Int.tdiv_eq_ediv ha (by norm_num)]
        omega
      · have e : Int.tdiv (240 - y) 8 = -(Int.tdiv (-(240 - y)) 8) := by
          rw [← Int.neg_tdiv, neg_neg]
        rw [e, Int.tdiv_eq_ediv (by omega) (by norm_num)]
        omega

/-- **C7** witness: row 100 maps to the truncated linear value. -/
theorem centroid_to_angle_linear_witness :
    track_tilt 100 = Int.tdiv (240 - 100) 8 :=
  centroid_to_angle_linear.2.2.2 100 (by decide) (by decide)

/-- **C8** counterexample.  The claim that no actuator tilt command is
applied while MotionState is Idle fails: `body_callback` calls
`set_tilt_degs` whenever the tilt cooldown has elapsed, regardless of the
motion state.  In the (reachable) initial state, which is Idle, a body
callback at t = 5 applies a tilt command. -/
theorem tilt_applied_while_idle :
    Reachable 3000000 sysInit ∧
    sysInit.rl.motion_state = false ∧
    (sys_step 3000000 sysInit (SysEvent.body 5)).2.2.2 = [-15] := by
  refine ⟨Reachable.init, rfl, ?_⟩
  norm_num [sys_step, body_callback, sysInit, rlInit, TILT_COOLDOWN]

/-- **C8** as amended.  The actuation *target computation* acts only
while Active: a depth callback in an Idle state never changes the tilt
angle (and issues no tilt command itself), while `body_callback` merely
re-applies the existing angle on cooldown, whatever the motion state. -/
theorem idle_no_jog (thr : Nat) (s : SysState) (inp : DepthInput) (now : Rat)
    (hidle : s.rl.motion_state = false) :
    (sys_step thr s (SysEvent.depth inp)).1.rl.current_tilt = s.rl.current_tilt ∧
    (sys_step thr s (SysEvent.depth inp)).2.2.2 = [] ∧
    ((sys_step thr s (SysEvent.body now)).2.2.2 = [] ∨
      (sys_step thr s (SysEvent.body now)).2.2.2 = [s.rl.current_tilt]) := by
  refine ⟨?_, rfl, ?_⟩
  · show (process_depth thr s.rl inp).1.current_tilt = s.rl.current_tilt
    rw [process_depth_current_tilt]
    simp [hidle]
  · show ((body_callback s now).2.2 = [] ∨ (body_callback s now).2.2 = [s.rl.current_tilt])
    simp only [body_callback]
    split <;> simp

/-- **C8** witness: in the Idle initial state a depth callback leaves the
tilt angle unchanged. -/
theorem idle_no_jog_witness :
    (sys_step 3000000 sysInit (SysEvent.depth ⟨0, none, 480, 0⟩)).1.rl.current_tilt
      = sysInit.rl.current_tilt :=
  (idle_no_jog 3000000 sysInit ⟨0, none, 480, 0⟩ 0 rfl).1

/-- **C9** (confirmed).  `connect_mqtt` makes at most 5 connect attempts
with a fixed 5-second delay after each failure; the first successful
attempt returns the connection, and five failures terminate the process
with exit code 1. -/
theorem connect_retry_bounded (ok : Nat → Bool) :
    (connect_mqtt ok).2.1 ≤ 5 ∧
    (∀ d ∈ (connect_mqtt ok).2.2, d = 5) ∧
    ((∀ i, i < 5 → ok i = false) →
      (connect_mqtt ok).1 = ConnectResult.exited 1 ∧
      (connect_mqtt ok).2.1 = 5 ∧
      (connect_mqtt ok).2.2 = [5, 5, 5, 5, 5]) ∧
    (∀ k, k < 5 → ok k = true → (∀ i, i < k → ok i = false) →
      (connect_mqtt ok).1 = ConnectResult.connected k ∧
      (connect_mqtt ok).2.1 = k + 1 ∧
      (connect_mqtt ok).2.2 = List.replicate k (5 : Rat)) := by
  refine ⟨?_, ?_, ?_, ?_⟩
  · simp only [connect_mqtt, connectFrom]
    split_ifs <;> simp
  · simp only [connect_mqtt, connectFrom]
    split_ifs <;> simp
  · intro hall
    have h0 := hall 0 (by norm_num)
    have h1 := hall 1 (by norm_num)
    have h2 := hall 2 (by norm_num)
    have h3 := hall 3 (by norm_num)
    have h4 := hall 4 (by norm_num)
    simp [connect_mqtt, connectFrom, h0, h1, h2, h3, h4]
  · intro k hk hok hmin
    interval_cases k
    · simp [connect_mqtt, connectFrom, hok]
    · have h0 := hmin 0 (by norm_num)
      simp [connect_mqtt, connectFrom, h0, hok]
    · have h0 := hmin 0 (by norm_num)
      have h1 := hmin 1 (by norm_num)
      simp [connect_mqtt, connectFrom, h0, h1, hok, List.replicate]
    · have h0 := hmin 0 (by norm_num)
      have h1 := hmin 1 (by norm_num)
      have h2 := hmin 2 (by norm_num)
      simp [connect_mqtt, connectFrom, h0, h1, h2, hok, List.replicate]
    · have h0 := hmin 0 (by norm_num)
      have h1 := hmin 1 (by norm_num)
      have h2 := hmin 2 (by norm_num)
      have h3 := hmin 3 (by norm_num)
      simp [connect_mqtt, connectFrom, h0, h1, h2, h3, hok, List.replicate]

/-- **C9** witness: with every attempt failing, `connect_mqtt` makes 5
attempts and exits with code 1. -/
theorem connect_retry_bounded_witness :
    (connect_mqtt (fun _ => false)).1 = ConnectResult.exited 1 ∧
    (connect_mqtt (fun _ => false)).2.1 = 5 := by
  have h := (connect_retry_bounded (fun _ => false)).2.2.1 (fun i _ => rfl)
  exact ⟨h.1, h.2.1⟩

/-- **C10** (confirmed).  An evaluation tick reached with an empty window
(`if not pixel_hist: return`) is skipped entirely: nothing is published,
no average is formed and the motion state, last-motion timestamp and
consecutive-below counter are unchanged. -/
theorem empty_window_eval_skipped (thr : Nat) (s : RLState) (inp : DepthInput)
    (hdue : ¬ (inp.now - s.last_check < CHECK_INTERVAL))
    (hempty : evalWindow s inp = []) :
    (process_depth thr s inp).2 = [] ∧
    (process_depth thr s inp).1.motion_state = s.motion_state ∧
    (process_depth thr s inp).1.last_motion = s.last_motion ∧
    (process_depth thr s inp).1.below_cnt = s.below_cnt ∧
    (process_depth thr s inp).1.pixel_hist = [] := by
  simp only [process_depth]
  simp [hdue, hempty]

/-- **C10** witness: the very first evaluation tick of the runloop script
finds an empty window and is skipped. -/
theorem empty_window_eval_skipped_witness :
    (process_depth 3000000 rlInit ⟨0, none, 480, 5⟩).2 = [] ∧
    (process_depth 3000000 rlInit ⟨0, none, 480, 5⟩).1.motion_state = rlInit.motion_state ∧
    (process_depth 3000000 rlInit ⟨0, none, 480, 5⟩).1.last_motion = rlInit.last_motion ∧
    (process_depth 3000000 rlInit ⟨0, none, 480, 5⟩).1.below_cnt = rlInit.below_cnt ∧
    (process_depth 3000000 rlInit ⟨0, none, 480, 5⟩).1.pixel_hist = [] :=
  empty_window_eval_skipped 3000000 rlInit ⟨0, none, 480, 5⟩
    (by norm_num [rlInit, CHECK_INTERVAL]) (by decide)

end KinectHAMonitor
